import Mathlib

/-!
Formal model of the temporal decision engine of this repository
(src/api.py and src/sign_translator.py): the per-frame smoothing and
commit logic of SignLanguageDetector.process_frame, session reset,
the confidence-threshold control endpoint and the bounded
prediction-history deque.

Modelling conventions:
* Python floats (confidences, timestamps) are embedded as rationals.
* The external classifier and the MediaPipe landmark extraction are
  abstracted away, as the engine only consumes their result: a processed
  frame is either an invalid frame, a frame with no detected hand, or a
  detected hand carrying the classifier output (label, confidence).
  This is exactly the data process_frame consumes after the classifier
  call; the result snapshot keeps the fields the claims talk about.
* collections.Counter(signs).most_common(1) is embedded by its documented
  CPython semantics: Counter keys enumerate in first-insertion order
  (first occurrence in the counted list) and, for n = 1, most_common is
  max-by-count over those keys, which keeps the first maximum, so ties
  resolve to the first-seen label.
* The top-k adapter SignLanguageClassifier.predict_top_k delegates its
  ordering to numpy.argsort with the default non-stable sort, so the
  source fixes no order for equal confidences; the adapter is therefore
  left outside the embedding rather than modelled with an invented
  tie-break.
* Constants that drift between the two source variants (cooldown 2.0s in
  api.py vs 1.8s in sign_translator.py, minimum filtered count 5 vs 1,
  consensus-ratio check 0.6 vs none, which is the same as a threshold
  of 0 since the ratio of a nonempty filtered window is positive) are
  hoisted into an EngineConfig record, following the specification's
  EngineConfig; apiConfig instantiates src/api.py and translatorConfig
  instantiates src/sign_translator.py.  Both variants share the window
  capacity 20, the smoothing gate of 10 history entries, and the strict
  confidence comparison.
-/

/-- The fixed 18-sign vocabulary ALL_SUPPORTED_SIGNS of src/api.py
(identical to SIGN_LABELS in src/sign_translator.py). -/
def ALL_SUPPORTED_SIGNS : List String :=
  ["HELLO", "THANKS", "YES", "NO", "PLEASE", "GOOD",
   "BEAUTIFUL", "BETTER", "HAPPY", "GREAT", "NAME", "MY",
   "LOOK", "TALK", "SAY", "ASK", "EAT", "DRINK"]

/-- Engine configuration, per the specification's EngineConfig.  The
fields collect the constants of the decision logic; smoothing_min_history
is the gate len(prediction_history) >= 10 present in both variants. -/
structure EngineConfig where
  window_capacity : Nat
  smoothing_min_history : Nat
  min_filtered_count : Nat
  consensus_ratio_threshold : ℚ
  cooldown_duration : ℚ
  deriving Repr

/-- The constants of SignLanguageDetector.process_frame in src/api.py:
deque maxlen 20, history gate 10, at least 5 filtered entries,
consistency ratio strictly above 0.6, cooldown strictly above 2.0s. -/
def apiConfig : EngineConfig :=
  { window_capacity := 20
    smoothing_min_history := 10
    min_filtered_count := 5
    consensus_ratio_threshold := 3/5
    cooldown_duration := 2 }

/-- The constants of SignLanguageRecognizer.run_recognition in
src/sign_translator.py: deque maxlen 20, history gate 10, any nonempty
filtered list (count at least 1), no ratio condition (threshold 0, always
exceeded by a nonempty filtered window), cooldown strictly above 1.8s. -/
def translatorConfig : EngineConfig :=
  { window_capacity := 20
    smoothing_min_history := 10
    min_filtered_count := 1
    consensus_ratio_threshold := 0
    cooldown_duration := 9/5 }

/-- The session_stats dictionary of SignLanguageDetector: running
counters plus the set of distinct committed-eligible signs (the Python
set is modelled as a duplicate-free insertion-ordered list). -/
structure SessionStats where
  total_predictions : Nat
  successful_predictions : Nat
  signs_detected : List String
  session_start : ℚ
  deriving Repr, DecidableEq

/-- The mutable per-session state of SignLanguageDetector: the bounded
prediction history, the recognized text, the last committed sign and its
commit time, the confidence threshold and the session statistics. -/
structure DetectorState where
  prediction_history : List (String × ℚ)
  recognized_text : List String
  last_sign : Option String
  last_sign_time : ℚ
  confidence_threshold : ℚ
  stats : SessionStats
  deriving Repr, DecidableEq

/-- A fresh detector as built by SignLanguageDetector.__init__ at wall
clock t0: empty history, empty text, no last sign, last_sign_time and
session_start initialised to the construction time, threshold 0.7. -/
def initState (t0 : ℚ) : DetectorState :=
  { prediction_history := []
    recognized_text := []
    last_sign := none
    last_sign_time := t0
    confidence_threshold := 7/10
    stats :=
      { total_predictions := 0
        successful_predictions := 0
        signs_detected := []
        session_start := t0 } }

/-- One frame-level observation as the engine sees it: the frame was
invalid (None or empty), no hand was detected, or a hand was detected
and the classifier returned (label, confidence). -/
inductive FrameObs where
  | invalid : FrameObs
  | noHand : FrameObs
  | hand (label : String) (confidence : ℚ) : FrameObs
  deriving Repr, DecidableEq

/-- The fields of the per-frame result dictionary that the claims
mention.  committed records the sign appended this cycle, if any
(new_sign_added in the source is committed.isSome). -/
structure FrameResult where
  hand_detected : Bool
  sign : Option String
  confidence : ℚ
  committed : Option String
  success : Bool
  deriving Repr, DecidableEq

/-- Push on a collections.deque with maxlen cap: append at the tail,
evicting the head when the deque is full. -/
def dequePush (cap : Nat) (q : List α) (x : α) : List α :=
  if cap ≤ q.length then q.tail ++ [x] else q ++ [x]

/-- A sequence of deque pushes, oldest first. -/
def pushAll (cap : Nat) (q : List α) (xs : List α) : List α :=
  xs.foldl (dequePush cap) q

/-- The filtered window: history entries whose confidence is strictly
above the threshold, in insertion order (the recent list of the source). -/
def filteredRecent (threshold : ℚ) (hist : List (String × ℚ)) :
    List (String × ℚ) :=
  hist.filter (fun p => threshold < p.2)

/-- Adding a sign to the signs_detected set: a no-op when the sign is
already present. -/
def insertSign (signs : List String) (lbl : String) : List String :=
  if lbl ∈ signs then signs else signs ++ [lbl]

/-- The key list of collections.Counter built from a list: the distinct
labels in order of first occurrence (CPython dict insertion order). -/
def firstSeenKeys : List String → List String
  | [] => []
  | a :: rest => a :: (firstSeenKeys rest).filter (fun x => x ≠ a)

/-- Fold of Python max over a nonempty key list with a count key
function: the accumulator is replaced only when a strictly larger count
appears, so the first maximum wins. -/
def pickMax (c : String → Nat) (a : String) (rest : List String) : String :=
  rest.foldl (fun best s => if c best < c s then s else best) a

/-- Counter(l).most_common(1), returning only the label: the first-seen
label of maximal count, or none for an empty list. -/
def mostCommon1 (l : List String) : Option String :=
  match firstSeenKeys l with
  | [] => none
  | a :: rest => some (pickMax (fun x => l.count x) a rest)

/-- The smoothing block of process_frame, factored as a pure decision on
the post-push history: no decision unless the history holds at least
smoothing_min_history entries and the filtered window at least
min_filtered_count entries; the mode of the filtered labels is committed
only when it differs from the last committed sign, the cooldown has
elapsed, and the consistency ratio strictly exceeds the configured
threshold. -/
def smoothDecision (cfg : EngineConfig) (threshold : ℚ)
    (hist : List (String × ℚ)) (last_sign : Option String)
    (last_sign_time now : ℚ) : Option String :=
  if cfg.smoothing_min_history ≤ hist.length then
    let recent := filteredRecent threshold hist
    if cfg.min_filtered_count ≤ recent.length then
      match mostCommon1 (recent.map Prod.fst) with
      | some detected =>
        if some detected ≠ last_sign ∧
            cfg.cooldown_duration < now - last_sign_time ∧
            cfg.consensus_ratio_threshold <
              (((recent.map Prod.fst).count detected : ℚ) /
                (recent.length : ℚ)) then
          some detected
        else none
      | none => none
    else none
  else none

/-- SignLanguageDetector.process_frame at wall clock now: always counts
the frame; on an invalid frame or no detected hand it leaves the rest of
the state unchanged; on a detected hand it updates the success counters
for a strictly-above-threshold confidence, pushes onto the history deque
and runs the smoothing block, appending the decided sign to the
recognized text and refreshing last_sign and last_sign_time on commit. -/
def process_frame (cfg : EngineConfig) (s : DetectorState) (f : FrameObs)
    (now : ℚ) : DetectorState × FrameResult :=
  let stats1 :=
    { s.stats with total_predictions := s.stats.total_predictions + 1 }
  match f with
  | .invalid =>
    ({ s with stats := stats1 },
     { hand_detected := false, sign := none, confidence := 0,
       committed := none, success := false })
  | .noHand =>
    ({ s with stats := stats1 },
     { hand_detected := false, sign := none, confidence := 0,
       committed := none, success := true })
  | .hand label conf =>
    let stats2 :=
      if s.confidence_threshold < conf then
        { stats1 with
          successful_predictions := stats1.successful_predictions + 1
          signs_detected := insertSign stats1.signs_detected label }
      else stats1
    let hist := dequePush cfg.window_capacity s.prediction_history (label, conf)
    let base : DetectorState :=
      { s with stats := stats2, prediction_history := hist }
    match smoothDecision cfg s.confidence_threshold hist s.last_sign
        s.last_sign_time now with
    | some detected =>
      ({ base with
          recognized_text := base.recognized_text ++ [detected]
          last_sign := some detected
          last_sign_time := now },
       { hand_detected := true, sign := some label, confidence := conf,
         committed := some detected, success := true })
    | none =>
      (base,
       { hand_detected := true, sign := some label, confidence := conf,
         committed := none, success := true })

/-- Run a list of timed frames through process_frame, returning the final
state and the list of commit events (time, label), oldest first. -/
def runTrace (cfg : EngineConfig) (s : DetectorState) :
    List (FrameObs × ℚ) → DetectorState × List (ℚ × String)
  | [] => (s, [])
  | (f, t) :: rest =>
    let step := process_frame cfg s f t
    let cont := runTrace cfg step.1 rest
    match step.2.committed with
    | some m => (cont.1, (t, m) :: cont.2)
    | none => cont

/-- SignLanguageDetector.reset_session at wall clock now: clears the
recognized text, the last committed sign and the prediction history, and
zeroes the session statistics.  The source does not touch last_sign_time
or confidence_threshold, so both carry over. -/
def reset_session (s : DetectorState) (now : ℚ) : DetectorState :=
  { s with
    recognized_text := []
    last_sign := none
    prediction_history := []
    stats :=
      { total_predictions := 0
        successful_predictions := 0
        signs_detected := []
        session_start := now } }

/-- The set-confidence-threshold endpoint: values strictly below 0 or
strictly above 1 are rejected with the state unchanged; all others
(including the boundaries) replace the threshold.  The Bool is the
success flag of the response. -/
def set_confidence_threshold (s : DetectorState) (v : ℚ) :
    DetectorState × Bool :=
  if v < 0 ∨ 1 < v then (s, false)
  else ({ s with confidence_threshold := v }, true)

/-- The recognized text surface: the space-join of the committed signs. -/
def recognizedText (s : DetectorState) : String :=
  String.intercalate " " s.recognized_text

/-- Scenario A exactly as the specification states it: from a fresh
session, 4 HELLO observations at 0.9 then 1 YES at 0.9, all within the
cooldown window of the session start. -/
def scenarioA_frames : List (FrameObs × ℚ) :=
  [(.hand "HELLO" (9/10), 1/5), (.hand "HELLO" (9/10), 2/5),
   (.hand "HELLO" (9/10), 3/5), (.hand "HELLO" (9/10), 4/5),
   (.hand "YES" (9/10), 1)]

/-- Scenario A adjusted to the code: five below-threshold observations
pad the history to the 10-entry smoothing gate, and the deciding frame
arrives more than the 2.0s cooldown after session start. -/
def scenarioA_padded_frames : List (FrameObs × ℚ) :=
  [(.hand "NO" (1/2), 1), (.hand "NO" (1/2), 1), (.hand "NO" (1/2), 1),
   (.hand "NO" (1/2), 1), (.hand "NO" (1/2), 1),
   (.hand "HELLO" (9/10), 1), (.hand "HELLO" (9/10), 1),
   (.hand "HELLO" (9/10), 1), (.hand "HELLO" (9/10), 1),
   (.hand "YES" (9/10), 3)]

/-- The state reached after the first nine frames of the padded
scenario A, one frame short of the commit. -/
def scenarioA_state9 : DetectorState :=
  (runTrace apiConfig (initState 0) (scenarioA_padded_frames.take 9)).1

/-- Scenario D: the detector state right after committing HELLO at
time 3 and then calling reset_session at time 3.5. -/
def scenarioD_after_reset : DetectorState :=
  reset_session (runTrace apiConfig (initState 0) scenarioA_padded_frames).1 (7/2)

/-- Scenario D follow-up frames: ten unanimous YES observations at 0.9,
the last at time 4.5 (only 1.5s after the pre-reset commit). -/
def scenarioD_frames : List (FrameObs × ℚ) :=
  [(.hand "YES" (9/10), 4), (.hand "YES" (9/10), 4), (.hand "YES" (9/10), 4),
   (.hand "YES" (9/10), 4), (.hand "YES" (9/10), 4), (.hand "YES" (9/10), 4),
   (.hand "YES" (9/10), 4), (.hand "YES" (9/10), 4), (.hand "YES" (9/10), 4),
   (.hand "YES" (9/10), 9/2)]

/-- A history with a 5 to 5 tie between YES (seen first) and HELLO,
all above threshold, for exercising the mode tie-break. -/
def tieHist : List (String × ℚ) :=
  [("YES", 9/10), ("HELLO", 9/10), ("YES", 9/10), ("HELLO", 9/10),
   ("YES", 9/10), ("HELLO", 9/10), ("YES", 9/10), ("HELLO", 9/10),
   ("YES", 9/10), ("HELLO", 9/10)]

/-- On a detected hand, the committed field of the result is exactly the
smoothing decision on the post-push history. -/
theorem process_frame_hand_committed (cfg : EngineConfig) (s : DetectorState)
    (lbl : String) (c : ℚ) (now : ℚ) :
    (process_frame cfg s (.hand lbl c) now).2.committed =
      smoothDecision cfg s.confidence_threshold
        (dequePush cfg.window_capacity s.prediction_history (lbl, c))
        s.last_sign s.last_sign_time now := by
  simp only [process_frame]
  cases h : smoothDecision cfg s.confidence_threshold
      (dequePush cfg.window_capacity s.prediction_history (lbl, c))
      s.last_sign s.last_sign_time now <;> simp [h]

theorem process_frame_last_sign_time (cfg : EngineConfig) (s : DetectorState)
    (f : FrameObs) (now : ℚ) :
    (process_frame cfg s f now).1.last_sign_time =
      (match (process_frame cfg s f now).2.committed with
       | some _ => now
       | none => s.last_sign_time) := by
  cases f with
  | invalid => rfl
  | noHand => rfl
  | hand lbl c =>
    simp only [process_frame]
    cases h : smoothDecision cfg s.confidence_threshold
        (dequePush cfg.window_capacity s.prediction_history (lbl, c))
        s.last_sign s.last_sign_time now <;> simp [h]

/-- When the smoothing block decides, all three commit conditions hold. -/
theorem smoothDecision_eq_some (cfg : EngineConfig) (threshold : ℚ)
    (hist : List (String × ℚ)) (last_sign : Option String)
    (last_sign_time now : ℚ) (m : String)
    (h : smoothDecision cfg threshold hist last_sign last_sign_time now = some m) :
    cfg.smoothing_min_history ≤ hist.length ∧
    cfg.min_filtered_count ≤ (filteredRecent threshold hist).length ∧
    mostCommon1 ((filteredRecent threshold hist).map Prod.fst) = some m ∧
    some m ≠ last_sign ∧
    cfg.cooldown_duration < now - last_sign_time ∧
    cfg.consensus_ratio_threshold <
      ((((filteredRecent threshold hist).map Prod.fst).count m : ℚ) /
        ((filteredRecent threshold hist).length : ℚ)) := by
  simp only [smoothDecision] at h
  split at h
  · split at h
    · split at h
      · rename_i detected hmc
        split at h
        · rename_i hcond
          cases h
          exact ⟨by assumption, by assumption, hmc, hcond.1, hcond.2.1, hcond.2.2⟩
        · exact absurd h (by simp)
      · exact absurd h (by simp)
    · exact absurd h (by simp)
  · exact absurd h (by simp)



theorem process_frame_total (cfg : EngineConfig) (s : DetectorState)
    (f : FrameObs) (now : ℚ) :
    (process_frame cfg s f now).1.stats.total_predictions =
      s.stats.total_predictions + 1 := by
  cases f with
  | invalid => rfl
  | noHand => rfl
  | hand lbl c =>
    by_cases hc : s.confidence_threshold < c <;>
      cases h : smoothDecision cfg s.confidence_threshold
          (dequePush cfg.window_capacity s.prediction_history (lbl, c))
          s.last_sign s.last_sign_time now <;>
      simp [process_frame, h, hc]

theorem process_frame_nonhand (cfg : EngineConfig) (s : DetectorState)
    (f : FrameObs) (now : ℚ) (hf : f = .invalid ∨ f = .noHand) :
    (process_frame cfg s f now).1 =
      { s with stats :=
        { s.stats with
          total_predictions := s.stats.total_predictions + 1 } } := by
  rcases hf with h | h <;> subst h <;> rfl

theorem process_frame_hand_history (cfg : EngineConfig) (s : DetectorState)
    (lbl : String) (c : ℚ) (now : ℚ) :
    (process_frame cfg s (.hand lbl c) now).1.prediction_history =
      dequePush cfg.window_capacity s.prediction_history (lbl, c) := by
  by_cases hc : s.confidence_threshold < c <;>
    cases h : smoothDecision cfg s.confidence_threshold
        (dequePush cfg.window_capacity s.prediction_history (lbl, c))
        s.last_sign s.last_sign_time now <;>
    simp [process_frame, h, hc]

theorem process_frame_hand_successful (cfg : EngineConfig) (s : DetectorState)
    (lbl : String) (c : ℚ) (now : ℚ) :
    (process_frame cfg s (.hand lbl c) now).1.stats.successful_predictions =
      (if s.confidence_threshold < c then s.stats.successful_predictions + 1
       else s.stats.successful_predictions) := by
  by_cases hc : s.confidence_threshold < c <;>
    cases h : smoothDecision cfg s.confidence_threshold
        (dequePush cfg.window_capacity s.prediction_history (lbl, c))
        s.last_sign s.last_sign_time now <;>
    simp [process_frame, h, hc]

theorem process_frame_hand_signs (cfg : EngineConfig) (s : DetectorState)
    (lbl : String) (c : ℚ) (now : ℚ) :
    (process_frame cfg s (.hand lbl c) now).1.stats.signs_detected =
      (if s.confidence_threshold < c then insertSign s.stats.signs_detected lbl
       else s.stats.signs_detected) := by
  by_cases hc : s.confidence_threshold < c <;>
    cases h : smoothDecision cfg s.confidence_threshold
        (dequePush cfg.window_capacity s.prediction_history (lbl, c))
        s.last_sign s.last_sign_time now <;>
    simp [process_frame, h, hc]

theorem process_frame_recognized (cfg : EngineConfig) (s : DetectorState)
    (f : FrameObs) (now : ℚ) :
    (process_frame cfg s f now).1.recognized_text =
      (match (process_frame cfg s f now).2.committed with
       | some m => s.recognized_text ++ [m]
       | none => s.recognized_text) := by
  cases f with
  | invalid => rfl
  | noHand => rfl
  | hand lbl c =>
    simp only [process_frame]
    cases h : smoothDecision cfg s.confidence_threshold
        (dequePush cfg.window_capacity s.prediction_history (lbl, c))
        s.last_sign s.last_sign_time now <;> simp [h]

theorem process_frame_threshold (cfg : EngineConfig) (s : DetectorState)
    (f : FrameObs) (now : ℚ) :
    (process_frame cfg s f now).1.confidence_threshold =
      s.confidence_threshold := by
  cases f with
  | invalid => rfl
  | noHand => rfl
  | hand lbl c =>
    simp only [process_frame]
    cases h : smoothDecision cfg s.confidence_threshold
        (dequePush cfg.window_capacity s.prediction_history (lbl, c))
        s.last_sign s.last_sign_time now <;> simp [h]



theorem process_frame_commit_cooldown (cfg : EngineConfig) (s : DetectorState)
    (f : FrameObs) (now : ℚ) (m : String)
    (h : (process_frame cfg s f now).2.committed = some m) :
    cfg.cooldown_duration < now - s.last_sign_time := by
  cases f with
  | invalid => simp [process_frame] at h
  | noHand => simp [process_frame] at h
  | hand lbl c =>
    rw [process_frame_hand_committed] at h
    exact (smoothDecision_eq_some _ _ _ _ _ _ _ h).2.2.2.2.1

theorem process_frame_commit_time (cfg : EngineConfig) (s : DetectorState)
    (f : FrameObs) (now : ℚ) (m : String)
    (h : (process_frame cfg s f now).2.committed = some m) :
    (process_frame cfg s f now).1.last_sign_time = now := by
  rw [process_frame_last_sign_time, h]

theorem process_frame_nocommit_time (cfg : EngineConfig) (s : DetectorState)
    (f : FrameObs) (now : ℚ)
    (h : (process_frame cfg s f now).2.committed = none) :
    (process_frame cfg s f now).1.last_sign_time = s.last_sign_time := by
  rw [process_frame_last_sign_time, h]

theorem chain_congr_anchor {R : ℚ × String → ℚ × String → Prop}
    (hR : ∀ x y b, x.1 = y.1 → R x b → R y b)
    (x y : ℚ × String) (hxy : x.1 = y.1) (l : List (ℚ × String))
    (h : List.Chain R x l) : List.Chain R y l := by
  cases l with
  | nil => exact List.Chain.nil
  | cons b t =>
    rcases List.chain_cons.mp h with ⟨hxb, hbt⟩
    exact List.chain_cons.mpr ⟨hR x y b hxy hxb, hbt⟩

theorem runTrace_chain (cfg : EngineConfig) :
    ∀ (frames : List (FrameObs × ℚ)) (s : DetectorState),
      List.Chain (fun e1 e2 : ℚ × String => cfg.cooldown_duration < e2.1 - e1.1)
        (s.last_sign_time, "") (runTrace cfg s frames).2 := by
  intro frames
  induction frames with
  | nil => intro s; exact List.Chain.nil
  | cons ft rest ih =>
    intro s
    obtain ⟨f, t⟩ := ft
    cases hcom : (process_frame cfg s f t).2.committed with
    | none =>
      have htime := process_frame_nocommit_time cfg s f t hcom
      have h2 : (runTrace cfg s ((f, t) :: rest)).2 =
          (runTrace cfg (process_frame cfg s f t).1 rest).2 := by
        simp only [runTrace, hcom]
      rw [h2]
      have := ih (process_frame cfg s f t).1
      rwa [htime] at this
    | some m =>
      have htime := process_frame_commit_time cfg s f t m hcom
      have h2 : (runTrace cfg s ((f, t) :: rest)).2 =
          (t, m) :: (runTrace cfg (process_frame cfg s f t).1 rest).2 := by
        simp only [runTrace, hcom]
      rw [h2]
      refine List.chain_cons.mpr ⟨?_, ?_⟩
      · exact process_frame_commit_cooldown cfg s f t m hcom
      · have := ih (process_frame cfg s f t).1
        rw [htime] at this
        exact chain_congr_anchor (fun x y b hxy hxb => by
          simpa [← hxy] using hxb) (t, "") (t, m) rfl _ this

theorem runTrace_cons_fst (cfg : EngineConfig) (s : DetectorState)
    (f : FrameObs) (t : ℚ) (rest : List (FrameObs × ℚ)) :
    (runTrace cfg s ((f, t) :: rest)).1 =
      (runTrace cfg (process_frame cfg s f t).1 rest).1 := by
  simp only [runTrace]
  split <;> rfl

theorem process_frame_successful_bounds (cfg : EngineConfig)
    (s : DetectorState) (f : FrameObs) (now : ℚ) :
    s.stats.successful_predictions ≤
        (process_frame cfg s f now).1.stats.successful_predictions ∧
      (process_frame cfg s f now).1.stats.successful_predictions ≤
        s.stats.successful_predictions + 1 := by
  cases f with
  | invalid => exact ⟨Nat.le_refl _, Nat.le_succ _⟩
  | noHand => exact ⟨Nat.le_refl _, Nat.le_succ _⟩
  | hand lbl c =>
    rw [process_frame_hand_successful]
    split <;> omega

theorem runTrace_stats_mono (cfg : EngineConfig) :
    ∀ (frames : List (FrameObs × ℚ)) (s : DetectorState),
      s.stats.total_predictions ≤
          (runTrace cfg s frames).1.stats.total_predictions ∧
        s.stats.successful_predictions ≤
          (runTrace cfg s frames).1.stats.successful_predictions := by
  intro frames
  induction frames with
  | nil => intro s; exact ⟨Nat.le_refl _, Nat.le_refl _⟩
  | cons ft rest ih =>
    intro s
    obtain ⟨f, t⟩ := ft
    rw [runTrace_cons_fst]
    have h1 := process_frame_total cfg s f t
    have h2 := process_frame_successful_bounds cfg s f t
    have h3 := ih (process_frame cfg s f t).1
    omega

theorem runTrace_stats_inv (cfg : EngineConfig) :
    ∀ (frames : List (FrameObs × ℚ)) (s : DetectorState),
      s.stats.successful_predictions ≤ s.stats.total_predictions →
        (runTrace cfg s frames).1.stats.successful_predictions ≤
          (runTrace cfg s frames).1.stats.total_predictions := by
  intro frames
  induction frames with
  | nil => intro s h; exact h
  | cons ft rest ih =>
    intro s h
    obtain ⟨f, t⟩ := ft
    rw [runTrace_cons_fst]
    refine ih (process_frame cfg s f t).1 ?_
    have h1 := process_frame_total cfg s f t
    have h2 := process_frame_successful_bounds cfg s f t
    omega




theorem pickMax_cons (c : String → Nat) (a s : String) (rest : List String) :
    pickMax c a (s :: rest) = pickMax c (if c a < c s then s else a) rest := rfl

theorem pickMax_mem (c : String → Nat) :
    ∀ (rest : List String) (a : String), pickMax c a rest ∈ a :: rest := by
  intro rest
  induction rest with
  | nil => intro a; simp [pickMax]
  | cons s rest' ih =>
    intro a
    rw [pickMax_cons]
    by_cases hcs : c a < c s
    · rw [if_pos hcs]
      rcases List.mem_cons.mp (ih s) with h | h
      · rw [h]; exact List.mem_cons_of_mem _ (List.mem_cons_self s rest')
      · exact List.mem_cons_of_mem _ (List.mem_cons_of_mem _ h)
    · rw [if_neg hcs]
      rcases List.mem_cons.mp (ih a) with h | h
      · rw [h]; exact List.mem_cons_self a _
      · exact List.mem_cons_of_mem _ (List.mem_cons_of_mem _ h)

theorem pickMax_le (c : String → Nat) :
    ∀ (rest : List String) (a : String), ∀ x ∈ a :: rest, c x ≤ c (pickMax c a rest) := by
  intro rest
  induction rest with
  | nil =>
    intro a x hx
    rcases List.mem_cons.mp hx with rfl | h
    · exact Nat.le_refl _
    · simp at h
  | cons s rest' ih =>
    intro a x hx
    rw [pickMax_cons]
    have hab : c a ≤ c (if c a < c s then s else a) := by split <;> omega
    have hsb : c s ≤ c (if c a < c s then s else a) := by split <;> omega
    have hhead := ih (if c a < c s then s else a) _
      (List.mem_cons_self (if c a < c s then s else a) rest')
    rcases List.mem_cons.mp hx with rfl | hx
    · exact hab.trans hhead
    · rcases List.mem_cons.mp hx with rfl | hx
      · exact hsb.trans hhead
      · exact ih _ x (List.mem_cons_of_mem _ hx)

theorem pickMax_split (c : String → Nat) :
    ∀ (rest : List String) (a : String),
      ∃ pre post, a :: rest = pre ++ pickMax c a rest :: post ∧
        ∀ x ∈ pre, c x < c (pickMax c a rest) := by
  intro rest
  induction rest with
  | nil => intro a; exact ⟨[], [], rfl, by simp⟩
  | cons s rest' ih =>
    intro a
    rw [pickMax_cons]
    by_cases hcs : c a < c s
    · rw [if_pos hcs]
      obtain ⟨pre, post, heq, hlt⟩ := ih s
      cases pre with
      | nil =>
        simp only [List.nil_append] at heq
        refine ⟨[a], post, ?_, ?_⟩
        · rw [List.singleton_append, ← heq]
        · intro x hx
          rcases List.mem_singleton.mp hx with rfl
          have : c s ≤ c (pickMax c s rest') :=
            pickMax_le c rest' s s (List.mem_cons_self s rest')
          omega
      | cons p pre' =>
        have hps : p = s := by
          have := congrArg (fun l => l.head?) heq
          simpa using this.symm
        subst hps
        have htail : rest' = pre' ++ pickMax c p rest' :: post := by
          have := congrArg (fun l => l.tail) heq
          simpa using this
        refine ⟨a :: p :: pre', post, ?_, ?_⟩
        · show a :: p :: rest' = (a :: p :: pre') ++ pickMax c p rest' :: post
          rw [List.cons_append, List.cons_append, ← htail]
        · intro x hx
          have hp : c p < c (pickMax c p rest') :=
            hlt p (List.mem_cons_self p pre')
          rcases List.mem_cons.mp hx with rfl | hx
          · omega
          · rcases List.mem_cons.mp hx with rfl | hx
            · exact hp
            · exact hlt x (List.mem_cons_of_mem _ hx)
    · rw [if_neg hcs]
      obtain ⟨pre, post, heq, hlt⟩ := ih a
      cases pre with
      | nil =>
        simp only [List.nil_append] at heq
        refine ⟨[], s :: post, ?_, by simp⟩
        have hhd : a = pickMax c a rest' := by
          have := congrArg (fun l => l.head?) heq
          simpa using this
        have htl : rest' = post := by
          have := congrArg (fun l => l.tail) heq
          simpa using this
        rw [List.nil_append, ← hhd, htl]
      | cons p pre' =>
        have hps : p = a := by
          have := congrArg (fun l => l.head?) heq
          simpa using this.symm
        subst hps
        have htail : rest' = pre' ++ pickMax c p rest' :: post := by
          have := congrArg (fun l => l.tail) heq
          simpa using this
        refine ⟨p :: s :: pre', post, ?_, ?_⟩
        · show p :: s :: rest' = (p :: s :: pre') ++ pickMax c p rest' :: post
          rw [List.cons_append, List.cons_append, ← htail]
        · intro x hx
          have hp : c p < c (pickMax c p rest') :=
            hlt p (List.mem_cons_self p pre')
          rcases List.mem_cons.mp hx with rfl | hx
          · exact hp
          · rcases List.mem_cons.mp hx with rfl | hx
            · omega
            · exact hlt x (List.mem_cons_of_mem _ hx)

theorem mem_firstSeenKeys (l : List String) (x : String) :
    x ∈ firstSeenKeys l ↔ x ∈ l := by
  induction l with
  | nil => simp [firstSeenKeys]
  | cons a rest ih =>
    simp only [firstSeenKeys, List.mem_cons, List.mem_filter, ih,
      decide_eq_true_eq]
    constructor
    · rintro (rfl | ⟨h, _⟩)
      · exact Or.inl rfl
      · exact Or.inr h
    · rintro (rfl | h)
      · exact Or.inl rfl
      · by_cases hxa : x = a
        · exact Or.inl hxa
        · exact Or.inr ⟨h, hxa⟩

theorem firstSeenKeys_pairwise (l : List String) :
    (firstSeenKeys l).Pairwise (fun u v => l.indexOf u < l.indexOf v) := by
  induction l with
  | nil => simp [firstSeenKeys]
  | cons a rest ih =>
    simp only [firstSeenKeys]
    refine List.pairwise_cons.mpr ⟨?_, ?_⟩
    · intro x hx
      have hxne : x ≠ a := by
        have := (List.mem_filter.mp hx).2
        simpa using this
      rw [List.indexOf_cons_self, List.indexOf_cons_ne _ (Ne.symm hxne)]
      exact Nat.succ_pos _
    · refine (ih.filter _).imp_of_mem ?_
      intro u v hu hv huv
      have hune : u ≠ a := by
        have := (List.mem_filter.mp hu).2
        simpa using this
      have hvne : v ≠ a := by
        have := (List.mem_filter.mp hv).2
        simpa using this
      rw [List.indexOf_cons_ne _ (Ne.symm hune),
        List.indexOf_cons_ne _ (Ne.symm hvne)]
      exact Nat.succ_lt_succ huv

theorem mostCommon1_spec (l : List String) (m : String)
    (h : mostCommon1 l = some m) :
    m ∈ l ∧ (∀ x ∈ l, l.count x ≤ l.count m) ∧
      ∀ x ∈ l, l.count x = l.count m → l.indexOf m ≤ l.indexOf x := by
  unfold mostCommon1 at h
  cases hk : firstSeenKeys l with
  | nil => rw [hk] at h; exact absurd h (by simp)
  | cons a rest =>
    rw [hk] at h
    simp only [Option.some.injEq] at h
    subst h
    have hmem : pickMax (fun y => l.count y) a rest ∈ a :: rest :=
      pickMax_mem (fun y => l.count y) rest a
    refine ⟨(mem_firstSeenKeys l _).mp (hk ▸ hmem), ?_, ?_⟩
    · intro x hx
      have hxk : x ∈ a :: rest := hk ▸ (mem_firstSeenKeys l x).mpr hx
      exact pickMax_le (fun y => l.count y) rest a x hxk
    · intro x hx hcx
      obtain ⟨pre, post, heq, hlt⟩ := pickMax_split (fun y => l.count y) rest a
      have hxk : x ∈ pre ++ pickMax (fun y => l.count y) a rest :: post :=
        heq ▸ (hk ▸ (mem_firstSeenKeys l x).mpr hx)
      have hpw := firstSeenKeys_pairwise l
      rw [hk, heq] at hpw
      rcases List.mem_append.mp hxk with hxpre | hxpost
      · have := hlt x hxpre
        omega
      · rcases List.mem_cons.mp hxpost with rfl | hxpost
        · exact Nat.le_refl _
        · have hpc := (List.pairwise_append.mp hpw).2.1
          have hr := (List.pairwise_cons.mp hpc).1 x hxpost
          exact Nat.le_of_lt hr



theorem pushAll_cons (cap : Nat) (q : List α) (x : α) (xs : List α) :
    pushAll cap q (x :: xs) = pushAll cap (dequePush cap q x) xs := rfl

theorem pushAll_eq_drop (cap : Nat) (hcap : 0 < cap) :
    ∀ (xs q : List α), q.length ≤ cap →
      pushAll cap q xs = (q ++ xs).drop (q.length + xs.length - cap) := by
  intro xs
  induction xs with
  | nil =>
    intro q hq
    have h0 : q.length + ([] : List α).length - cap = 0 := by
      simp only [List.length_nil, Nat.add_zero]
      omega
    rw [h0, List.append_nil, List.drop_zero]
    rfl
  | cons x xs' ih =>
    intro q hq
    rw [pushAll_cons]
    by_cases hfull : cap ≤ q.length
    · have hlen : q.length = cap := Nat.le_antisymm hq hfull
      have hqne : q ≠ [] := by
        intro h
        rw [h] at hlen
        simp only [List.length_nil] at hlen
        omega
      obtain ⟨h0, t, rfl⟩ := List.exists_cons_of_ne_nil hqne
      have hdq : dequePush cap (h0 :: t) x = t ++ [x] := by
        unfold dequePush
        rw [if_pos hfull]
        rfl
      rw [hdq]
      simp only [List.length_cons] at hlen
      have hlt : (t ++ [x]).length ≤ cap := by
        simp only [List.length_append, List.length_cons, List.length_nil]
        omega
      rw [ih _ hlt]
      have e1 : (t ++ [x]).length + xs'.length - cap = xs'.length := by
        simp only [List.length_append, List.length_cons, List.length_nil]
        omega
      have e2 : (h0 :: t).length + (x :: xs').length - cap = xs'.length + 1 := by
        simp only [List.length_cons]
        omega
      rw [e1, e2]
      show ((t ++ [x]) ++ xs').drop xs'.length =
        ((h0 :: t) ++ x :: xs').drop (xs'.length + 1)
      rw [List.cons_append, List.drop_succ_cons, List.append_assoc,
        List.singleton_append]
    · have hdq : dequePush cap q x = q ++ [x] := by
        unfold dequePush
        rw [if_neg hfull]
      have hle : (q ++ [x]).length ≤ cap := by
        simp only [List.length_append, List.length_cons, List.length_nil]
        omega
      rw [hdq, ih _ hle]
      have e3 : (q ++ [x]) ++ xs' = q ++ x :: xs' := by
        rw [List.append_assoc, List.singleton_append]
      have e4 : (q ++ [x]).length + xs'.length - cap =
          q.length + (x :: xs').length - cap := by
        simp only [List.length_append, List.length_cons, List.length_nil]
        omega
      rw [e3, e4]

theorem pushAll_nil_drop (xs : List α) :
    pushAll 20 [] xs = xs.drop (xs.length - 20) := by
  have h := pushAll_eq_drop 20 (by omega) xs ([] : List α) (by simp)
  simpa using h

/-- C1 counterexample: running scenario A exactly as stated (fresh
session, 4 HELLO at 0.9 then 1 YES at 0.9, all within the cooldown
window) gives a filtered count of 5 with mode HELLO at ratio 0.8, yet
nothing is committed and the recognized text stays empty, because the
smoothing block requires at least 10 history entries and the cooldown
is measured from session construction. -/
theorem scenarioA_as_stated_no_commit :
    (filteredRecent (7/10)
      (runTrace apiConfig (initState 0) scenarioA_frames).1.prediction_history).length = 5 ∧
    mostCommon1 ((filteredRecent (7/10)
      (runTrace apiConfig (initState 0) scenarioA_frames).1.prediction_history).map Prod.fst) =
        some "HELLO" ∧
    ((((filteredRecent (7/10)
      (runTrace apiConfig (initState 0) scenarioA_frames).1.prediction_history).map Prod.fst).count "HELLO" : ℚ) /
      (((filteredRecent (7/10)
      (runTrace apiConfig (initState 0) scenarioA_frames).1.prediction_history).length : ℚ))) = 4/5 ∧
    (runTrace apiConfig (initState 0) scenarioA_frames).1.recognized_text = [] ∧
    (runTrace apiConfig (initState 0) scenarioA_frames).2 = [] ∧
    recognizedText (runTrace apiConfig (initState 0) scenarioA_frames).1 ≠ "HELLO" :=
  of_decide_eq_true (by with_unfolding_all rfl)

/-- C1 (amended): from a fresh session, five below-threshold
observations followed by 4 HELLO at 0.9 and 1 YES at 0.9, with the
deciding frame more than the 2.0s cooldown after session start, bring
the history to the 10-entry smoothing gate with filtered count 5, mode
HELLO at consensus ratio 0.8 above 0.6, so HELLO is committed and the
recognized text equals HELLO. -/
theorem scenarioA_amended_commits_hello :
    (filteredRecent (7/10)
      (runTrace apiConfig (initState 0) scenarioA_padded_frames).1.prediction_history).length = 5 ∧
    mostCommon1 ((filteredRecent (7/10)
      (runTrace apiConfig (initState 0) scenarioA_padded_frames).1.prediction_history).map Prod.fst) =
        some "HELLO" ∧
    ((((filteredRecent (7/10)
      (runTrace apiConfig (initState 0) scenarioA_padded_frames).1.prediction_history).map Prod.fst).count "HELLO" : ℚ) /
      (((filteredRecent (7/10)
      (runTrace apiConfig (initState 0) scenarioA_padded_frames).1.prediction_history).length : ℚ))) = 4/5 ∧
    (runTrace apiConfig (initState 0) scenarioA_padded_frames).1.recognized_text = ["HELLO"] ∧
    (runTrace apiConfig (initState 0) scenarioA_padded_frames).2 = [(3, "HELLO")] ∧
    recognizedText (runTrace apiConfig (initState 0) scenarioA_padded_frames).1 = "HELLO" :=
  of_decide_eq_true (by with_unfolding_all rfl)

/-- C2 (amended): reset_session clears the recognized text, the session
counters, the prediction window and the last committed label, and keeps
the confidence threshold; but it does not reset last_sign_time, so the
cooldown clock of the pre-reset commit survives the reset. -/
theorem reset_session_spec (s : DetectorState) (now : ℚ) :
    (reset_session s now).recognized_text = [] ∧
    recognizedText (reset_session s now) = "" ∧
    (reset_session s now).stats.total_predictions = 0 ∧
    (reset_session s now).stats.successful_predictions = 0 ∧
    (reset_session s now).stats.signs_detected = [] ∧
    (reset_session s now).stats.session_start = now ∧
    (reset_session s now).prediction_history = [] ∧
    (reset_session s now).last_sign = none ∧
    (reset_session s now).last_sign_time = s.last_sign_time ∧
    (reset_session s now).confidence_threshold = s.confidence_threshold :=
  ⟨rfl, rfl, rfl, rfl, rfl, rfl, rfl, rfl, rfl, rfl⟩

/-- C2 counterexample: after committing HELLO at time 3 and resetting at
time 3.5, the reset state has empty text, zeroed counters, empty window
and no last sign, and ten unanimous YES observations then satisfy every
consensus condition at the tenth frame (filtered count 10, mode YES,
ratio 1 above 0.6, label differs from the cleared last sign) at
time 4.5, yet no commit happens: last_sign_time still holds the
pre-reset commit time 3 and only 1.5s of the 2.0s cooldown elapsed. -/
theorem reset_session_residual_cooldown :
    scenarioD_after_reset.recognized_text = [] ∧
    scenarioD_after_reset.stats.total_predictions = 0 ∧
    scenarioD_after_reset.prediction_history = [] ∧
    scenarioD_after_reset.last_sign = none ∧
    scenarioD_after_reset.last_sign_time = 3 ∧
    (filteredRecent (7/10)
      (runTrace apiConfig scenarioD_after_reset scenarioD_frames).1.prediction_history).length = 10 ∧
    mostCommon1 ((filteredRecent (7/10)
      (runTrace apiConfig scenarioD_after_reset scenarioD_frames).1.prediction_history).map Prod.fst) =
        some "YES" ∧
    (3/5 : ℚ) <
      ((((filteredRecent (7/10)
        (runTrace apiConfig scenarioD_after_reset scenarioD_frames).1.prediction_history).map Prod.fst).count "YES" : ℚ) /
        (((filteredRecent (7/10)
        (runTrace apiConfig scenarioD_after_reset scenarioD_frames).1.prediction_history).length : ℚ))) ∧
    (runTrace apiConfig scenarioD_after_reset scenarioD_frames).2 = [] ∧
    (runTrace apiConfig scenarioD_after_reset scenarioD_frames).1.recognized_text = [] :=
  of_decide_eq_true (by with_unfolding_all rfl)

theorem smoothDecision_none_of_filtered_lt (cfg : EngineConfig)
    (threshold : ℚ) (hist : List (String × ℚ)) (last_sign : Option String)
    (last_sign_time now : ℚ)
    (h : (filteredRecent threshold hist).length < cfg.min_filtered_count) :
    smoothDecision cfg threshold hist last_sign last_sign_time now = none := by
  simp only [smoothDecision]
  split
  · rw [if_neg (Nat.not_le.mpr h)]
  · rfl

/-- C3: whenever the filtered window (entries strictly above the
confidence threshold) holds fewer than min_filtered_count entries, the
smoothing block returns no decision, and a processed frame whose
post-push window is in that situation never commits. -/
theorem no_premature_commit :
    (∀ (cfg : EngineConfig) (threshold : ℚ) (hist : List (String × ℚ))
        (last_sign : Option String) (last_sign_time now : ℚ),
      (filteredRecent threshold hist).length < cfg.min_filtered_count →
      smoothDecision cfg threshold hist last_sign last_sign_time now = none) ∧
    (∀ (cfg : EngineConfig) (s : DetectorState) (f : FrameObs) (now : ℚ),
      (filteredRecent s.confidence_threshold
        (process_frame cfg s f now).1.prediction_history).length <
          cfg.min_filtered_count →
      (process_frame cfg s f now).2.committed = none) := by
  refine ⟨smoothDecision_none_of_filtered_lt, ?_⟩
  intro cfg s f now h
  cases f with
  | invalid => rfl
  | noHand => rfl
  | hand lbl c =>
    rw [process_frame_hand_history] at h
    rw [process_frame_hand_committed]
    exact smoothDecision_none_of_filtered_lt cfg _ _ _ _ _ h

/-- C3 witness: a fresh session processing a single above-threshold
HELLO frame has a filtered window of length 1, below the default
minimum of 5, and indeed commits nothing. -/
theorem no_premature_commit_witness :
    (process_frame apiConfig (initState 0) (FrameObs.hand "HELLO" (9/10)) 1).2.committed =
      none :=
  no_premature_commit.2 apiConfig (initState 0) (FrameObs.hand "HELLO" (9/10)) 1
    (of_decide_eq_true (by with_unfolding_all rfl))

/-- C4: a frame commits a label only when the mode of the filtered
post-push window differs from the last committed label, the time since
the last commit strictly exceeds the cooldown and the consensus ratio
strictly exceeds the configured threshold; consequently the commit
events of any run are separated by strictly more than the cooldown. -/
theorem commit_conditions_and_cooldown :
    (∀ (cfg : EngineConfig) (s : DetectorState) (lbl : String) (c now : ℚ)
        (m : String),
      (process_frame cfg s (FrameObs.hand lbl c) now).2.committed = some m →
      mostCommon1 ((filteredRecent s.confidence_threshold
          (dequePush cfg.window_capacity s.prediction_history (lbl, c))).map Prod.fst) =
        some m ∧
      some m ≠ s.last_sign ∧
      cfg.cooldown_duration < now - s.last_sign_time ∧
      cfg.consensus_ratio_threshold <
        ((((filteredRecent s.confidence_threshold
            (dequePush cfg.window_capacity s.prediction_history (lbl, c))).map Prod.fst).count m : ℚ) /
          (((filteredRecent s.confidence_threshold
            (dequePush cfg.window_capacity s.prediction_history (lbl, c))).length : ℚ)))) ∧
    (∀ (cfg : EngineConfig) (s : DetectorState) (frames : List (FrameObs × ℚ)),
      List.Chain' (fun e1 e2 : ℚ × String => cfg.cooldown_duration < e2.1 - e1.1)
        (runTrace cfg s frames).2) := by
  constructor
  · intro cfg s lbl c now m h
    rw [process_frame_hand_committed] at h
    have hs := smoothDecision_eq_some _ _ _ _ _ _ _ h
    exact ⟨hs.2.2.1, hs.2.2.2.1, hs.2.2.2.2.1, hs.2.2.2.2.2⟩
  · intro cfg s frames
    have hch := runTrace_chain cfg frames s
    cases hev : (runTrace cfg s frames).2 with
    | nil => exact List.chain'_nil
    | cons e t =>
      rw [hev] at hch
      exact (List.chain_cons.mp hch).2

/-- C4 witness: at the deciding frame of the padded scenario A, the
commit of HELLO indeed satisfies all three conditions. -/
theorem commit_conditions_and_cooldown_witness :
    mostCommon1 ((filteredRecent scenarioA_state9.confidence_threshold
        (dequePush apiConfig.window_capacity scenarioA_state9.prediction_history
          ("YES", 9/10))).map Prod.fst) = some "HELLO" ∧
    some "HELLO" ≠ scenarioA_state9.last_sign ∧
    apiConfig.cooldown_duration < 3 - scenarioA_state9.last_sign_time ∧
    apiConfig.consensus_ratio_threshold <
      ((((filteredRecent scenarioA_state9.confidence_threshold
          (dequePush apiConfig.window_capacity scenarioA_state9.prediction_history
            ("YES", 9/10))).map Prod.fst).count "HELLO" : ℚ) /
        (((filteredRecent scenarioA_state9.confidence_threshold
          (dequePush apiConfig.window_capacity scenarioA_state9.prediction_history
            ("YES", 9/10))).length : ℚ))) :=
  commit_conditions_and_cooldown.1 apiConfig scenarioA_state9 "YES" (9/10) 3 "HELLO"
    (of_decide_eq_true (by with_unfolding_all rfl))

/-- C6: when the smoothing block decides on a label, that label is a
mode of the filtered label sequence and, among all labels tying its
count, it is the one whose first occurrence in the filtered sequence is
earliest (first-seen wins), so the selection is deterministic. -/
theorem mode_tie_break_first_seen (cfg : EngineConfig) (threshold : ℚ)
    (hist : List (String × ℚ)) (last_sign : Option String)
    (last_sign_time now : ℚ) (m : String)
    (h : smoothDecision cfg threshold hist last_sign last_sign_time now = some m) :
    m ∈ (filteredRecent threshold hist).map Prod.fst ∧
    (∀ x ∈ (filteredRecent threshold hist).map Prod.fst,
      ((filteredRecent threshold hist).map Prod.fst).count x ≤
        ((filteredRecent threshold hist).map Prod.fst).count m) ∧
    ∀ x ∈ (filteredRecent threshold hist).map Prod.fst,
      ((filteredRecent threshold hist).map Prod.fst).count x =
          ((filteredRecent threshold hist).map Prod.fst).count m →
      ((filteredRecent threshold hist).map Prod.fst).indexOf m ≤
        ((filteredRecent threshold hist).map Prod.fst).indexOf x := by
  have hs := smoothDecision_eq_some _ _ _ _ _ _ _ h
  exact mostCommon1_spec _ _ hs.2.2.1

/-- C6 witness: on a 5 to 5 tie between YES (seen first) and HELLO the
decision picks YES, whose first occurrence precedes the first HELLO in
the filtered sequence. -/
theorem mode_tie_break_first_seen_witness :
    "YES" ∈ (filteredRecent (7/10) tieHist).map Prod.fst ∧
    ((filteredRecent (7/10) tieHist).map Prod.fst).indexOf "YES" ≤
      ((filteredRecent (7/10) tieHist).map Prod.fst).indexOf "HELLO" := by
  have h := mode_tie_break_first_seen translatorConfig (7/10) tieHist none 0 2 "YES"
    (of_decide_eq_true (by with_unfolding_all rfl))
  exact ⟨h.1, h.2.2 "HELLO" (of_decide_eq_true (by with_unfolding_all rfl))
    (of_decide_eq_true (by with_unfolding_all rfl))⟩

/-- C7: setting the confidence threshold to a value strictly below 0 or
strictly above 1 fails and leaves the whole detector state (hence the
stored threshold) unchanged; any value in the closed interval [0, 1]
is accepted and becomes the threshold returned by the next read. -/
theorem threshold_validation :
    (∀ (s : DetectorState) (v : ℚ), (v < 0 ∨ 1 < v) →
      set_confidence_threshold s v = (s, false)) ∧
    (∀ (s : DetectorState) (v : ℚ), 0 ≤ v → v ≤ 1 →
      (set_confidence_threshold s v).2 = true ∧
      (set_confidence_threshold s v).1.confidence_threshold = v ∧
      (set_confidence_threshold s v).1.prediction_history = s.prediction_history ∧
      (set_confidence_threshold s v).1.recognized_text = s.recognized_text ∧
      (set_confidence_threshold s v).1.stats = s.stats) := by
  constructor
  · intro s v h
    unfold set_confidence_threshold
    rw [if_pos h]
  · intro s v h0 h1
    have hno : ¬(v < 0 ∨ 1 < v) := by
      push_neg
      exact ⟨h0, h1⟩
    unfold set_confidence_threshold
    rw [if_neg hno]
    exact ⟨rfl, rfl, rfl, rfl, rfl⟩

/-- C7 witness: setting -0.1 and 1.1 fails with the state unchanged,
while 0.75 and both boundaries 0 and 1 succeed and are read back. -/
theorem threshold_validation_witness :
    set_confidence_threshold (initState 0) (-1/10) = (initState 0, false) ∧
    set_confidence_threshold (initState 0) (11/10) = (initState 0, false) ∧
    (set_confidence_threshold (initState 0) (3/4)).2 = true ∧
    (set_confidence_threshold (initState 0) (3/4)).1.confidence_threshold = 3/4 ∧
    (set_confidence_threshold (initState 0) 0).2 = true ∧
    (set_confidence_threshold (initState 0) 1).2 = true :=
  ⟨threshold_validation.1 (initState 0) (-1/10) (Or.inl (by norm_num)),
   threshold_validation.1 (initState 0) (11/10) (Or.inr (by norm_num)),
   (threshold_validation.2 (initState 0) (3/4) (by norm_num) (by norm_num)).1,
   (threshold_validation.2 (initState 0) (3/4) (by norm_num) (by norm_num)).2.1,
   (threshold_validation.2 (initState 0) 0 (by norm_num) (by norm_num)).1,
   (threshold_validation.2 (initState 0) 1 (by norm_num) (by norm_num)).1⟩

/-- C8: every processed frame increments total_predictions by exactly
one and never decreases successful_predictions; across any run without
a reset both counters are non-decreasing; and in every state reachable
from a fresh session, successful_predictions never exceeds
total_predictions. -/
theorem stats_monotonicity :
    (∀ (cfg : EngineConfig) (s : DetectorState) (f : FrameObs) (now : ℚ),
      (process_frame cfg s f now).1.stats.total_predictions =
        s.stats.total_predictions + 1 ∧
      s.stats.successful_predictions ≤
        (process_frame cfg s f now).1.stats.successful_predictions) ∧
    (∀ (cfg : EngineConfig) (s : DetectorState) (frames : List (FrameObs × ℚ)),
      s.stats.total_predictions ≤
          (runTrace cfg s frames).1.stats.total_predictions ∧
        s.stats.successful_predictions ≤
          (runTrace cfg s frames).1.stats.successful_predictions) ∧
    (∀ (cfg : EngineConfig) (t0 : ℚ) (frames : List (FrameObs × ℚ)),
      (runTrace cfg (initState t0) frames).1.stats.successful_predictions ≤
        (runTrace cfg (initState t0) frames).1.stats.total_predictions) := by
  refine ⟨?_, ?_, ?_⟩
  · intro cfg s f now
    exact ⟨process_frame_total cfg s f now,
      (process_frame_successful_bounds cfg s f now).1⟩
  · intro cfg s frames
    exact runTrace_stats_mono cfg frames s
  · intro cfg t0 frames
    exact runTrace_stats_inv cfg frames (initState t0) (Nat.le_refl 0)

/-- C9: pushing N observations into the empty capacity-20 prediction
window retains exactly the last min(N, 20) of them in order: the window
is the length-(N minus 20) drop of the push sequence, its length is
min(N, 20), and its oldest entry is the (N - 20 + 1)-th pushed (index
N - 20 from zero); both source variants use capacity 20. -/
theorem prediction_window_bound (xs : List (String × ℚ)) :
    pushAll 20 [] xs = xs.drop (xs.length - 20) ∧
    (pushAll 20 [] xs).length = min xs.length 20 ∧
    (pushAll 20 [] xs).head? = xs[xs.length - 20]? ∧
    apiConfig.window_capacity = 20 ∧
    translatorConfig.window_capacity = 20 := by
  have h := pushAll_nil_drop xs
  refine ⟨h, ?_, ?_, rfl, rfl⟩
  · rw [h, List.length_drop]
    omega
  · rw [h, List.head?_eq_getElem?, List.getElem?_drop, Nat.add_zero]

/-- C10: every call to process_frame increments total_predictions by
exactly one, including invalid-frame and no-hand calls; on those calls
the success counter, the distinct-signs set and the prediction history
are untouched and no hand is reported; on a detected hand the
observation is always pushed onto the window, while the success counter
and the distinct-signs set grow exactly when the confidence is strictly
above the threshold. -/
theorem process_frame_effects :
    (∀ (cfg : EngineConfig) (s : DetectorState) (f : FrameObs) (now : ℚ),
      (process_frame cfg s f now).1.stats.total_predictions =
        s.stats.total_predictions + 1) ∧
    (∀ (cfg : EngineConfig) (s : DetectorState) (f : FrameObs) (now : ℚ),
      (f = FrameObs.invalid ∨ f = FrameObs.noHand) →
      (process_frame cfg s f now).1.stats.successful_predictions =
          s.stats.successful_predictions ∧
        (process_frame cfg s f now).1.stats.signs_detected =
          s.stats.signs_detected ∧
        (process_frame cfg s f now).1.prediction_history =
          s.prediction_history ∧
        (process_frame cfg s f now).2.hand_detected = false) ∧
    (∀ (cfg : EngineConfig) (s : DetectorState) (lbl : String) (c now : ℚ),
      (process_frame cfg s (FrameObs.hand lbl c) now).1.prediction_history =
          dequePush cfg.window_capacity s.prediction_history (lbl, c) ∧
        (process_frame cfg s (FrameObs.hand lbl c) now).1.stats.successful_predictions =
          (if s.confidence_threshold < c then s.stats.successful_predictions + 1
           else s.stats.successful_predictions) ∧
        (process_frame cfg s (FrameObs.hand lbl c) now).1.stats.signs_detected =
          (if s.confidence_threshold < c then insertSign s.stats.signs_detected lbl
           else s.stats.signs_detected)) := by
  refine ⟨process_frame_total, ?_, ?_⟩
  · intro cfg s f now hf
    rcases hf with rfl | rfl <;> exact ⟨rfl, rfl, rfl, rfl⟩
  · intro cfg s lbl c now
    exact ⟨process_frame_hand_history cfg s lbl c now,
      process_frame_hand_successful cfg s lbl c now,
      process_frame_hand_signs cfg s lbl c now⟩

/-- C10 witness: a no-hand cycle touches only the total counter, and an
above-threshold HELLO observation on a fresh session pushes the window
and bumps the success counter and distinct-signs set. -/
theorem process_frame_effects_witness :
    ((process_frame apiConfig (initState 0) FrameObs.noHand 1).1.stats.successful_predictions =
        (initState 0).stats.successful_predictions ∧
      (process_frame apiConfig (initState 0) FrameObs.noHand 1).1.stats.signs_detected =
        (initState 0).stats.signs_detected ∧
      (process_frame apiConfig (initState 0) FrameObs.noHand 1).1.prediction_history =
        (initState 0).prediction_history ∧
      (process_frame apiConfig (initState 0) FrameObs.noHand 1).2.hand_detected = false) ∧
    (process_frame apiConfig (initState 0) (FrameObs.hand "HELLO" (9/10)) 1).1.prediction_history =
      dequePush apiConfig.window_capacity (initState 0).prediction_history ("HELLO", 9/10) :=
  ⟨process_frame_effects.2.1 apiConfig (initState 0) FrameObs.noHand 1 (Or.inr rfl),
   (process_frame_effects.2.2 apiConfig (initState 0) "HELLO" (9/10) 1).1⟩
